import Mathlib

/-!
Verification of the Deriv trading bot's real-time engine against its
natural-language specification.  The definitions below are a shallow
embedding of the TypeScript sources: the DerivAPI WebSocket client
(lib/deriv-api.ts), the Terminal/Sniper auto-trading pages, and the
indicator library (components/digit-heatmap.tsx).  Money amounts are
modelled as rationals, JS NaN as Option.none, and the stateful client
as explicit state passing.
-/

namespace Spec2Proof

/-- Outbound venue messages the embedded fragments send.  Mirrors the
JSON payloads of the source: authorize, tick subscribe, forget_all. -/
inductive Msg
  | authorize (token : String)
  | subscribe (symbol : String)
  | forgetAll (category : String)
  | other
deriving DecidableEq, Repr

/-- Promise settlements the client code can perform on a pending request.
The source rejects with the messages "Not connected" (send when closed)
and "Request timeout" (30 s timer); resolution happens in the onmessage
dispatch.  The cancelled constructor stands for the CancelledError of the
spec's error taxonomy, which the source never produces. -/
inductive Settlement
  | resolved (caller respId : Nat)
  | timedOut (caller rid : Nat)
  | notConnected (caller : Nat)
  | cancelled (caller : Nat)
deriving DecidableEq, Repr

/-- State of the DerivAPI class (src/unnamed/part_000, fields of the
class): ws (null or open), isConnected, reqId counter, the callbacks
Map (req_id to the pending promise, identified by a caller id), the
tickSubscribers Map (keys only: the registered symbols), and the
reconnect attempt counter. -/
structure ConnState where
  wsOpen : Bool
  isConnected : Bool
  reqId : Nat
  callbacks : List (Nat × Nat)
  tickSubscribers : List String
  reconnectAttempts : Nat
deriving DecidableEq, Repr

/-- Map.get on the callbacks map (assoc list, newest entry first). -/
def mapGet (i : Nat) : List (Nat × Nat) → Option Nat
  | [] => none
  | e :: rest => if e.1 = i then some e.2 else mapGet i rest

/-- Map.delete on the callbacks map. -/
def mapDelete (i : Nat) (l : List (Nat × Nat)) : List (Nat × Nat) :=
  l.filter (fun e => e.1 != i)

namespace DerivAPI

/-- maxReconnectAttempts = 5 in the source. -/
def maxReconnectAttempts : Nat := 5

/-- The 30000 ms delay the send method passes to setTimeout. -/
def requestTimeoutMs : Nat := 30000

/-- DerivAPI.send: rejects with "Not connected" when the socket is null
or not connected; otherwise assigns reqId+1, stores the pending entry,
sends the message and schedules a timeout timer of 30000 ms.  Returns
the new state, the settlements performed now, and (on success) the
assigned id with the scheduled timer delay. -/
def send (s : ConnState) (caller : Nat) :
    ConnState × List Settlement × Option (Nat × Nat) :=
  if s.wsOpen ∧ s.isConnected then
    let rid := s.reqId + 1
    ({ s with reqId := rid, callbacks := (rid, caller) :: s.callbacks },
     [], some (rid, requestTimeoutMs))
  else
    (s, [Settlement.notConnected caller], none)

/-- The req_id branch of the onmessage handler: when a response carrying
req_id arrives and the map has the id, the stored callback resolves the
caller's promise and the entry is deleted. -/
def onResponse (s : ConnState) (i : Nat) : ConnState × List Settlement :=
  match mapGet i s.callbacks with
  | some c => ({ s with callbacks := mapDelete i s.callbacks },
               [Settlement.resolved c i])
  | none => (s, [])

/-- The timeout closure scheduled by send for request rid: if the entry
is still in the map it is deleted and the promise rejected with
"Request timeout"; otherwise nothing happens. -/
def onTimeout (s : ConnState) (i : Nat) : ConnState × List Settlement :=
  match mapGet i s.callbacks with
  | some c => ({ s with callbacks := mapDelete i s.callbacks },
               [Settlement.timedOut c i])
  | none => (s, [])

/-- DerivAPI.disconnect: closes and nulls the socket, resets
isConnected, clears the callbacks map and the tickSubscribers map.
The body performs no promise settlement (it only clears the maps),
hence the empty settlement list. -/
def disconnect (s : ConnState) : ConnState × List Settlement :=
  ({ s with wsOpen := false, isConnected := false,
            callbacks := [], tickSubscribers := [] }, [])

/-- DerivAPI.subscribeTicks: registers the handler under the symbol
(Map.set: at most one entry per symbol) and sends a tick subscribe
request for the symbol. -/
def subscribeTicks (s : ConnState) (sym : String) : ConnState × Msg :=
  ({ s with tickSubscribers :=
      if sym ∈ s.tickSubscribers then s.tickSubscribers
      else sym :: s.tickSubscribers },
   Msg.subscribe sym)

/-- DerivAPI.unsubscribeTicks: deletes the symbol's entry from the
tickSubscribers map and sends a forget_all request for the whole
"ticks" category. -/
def unsubscribeTicks (s : ConnState) (sym : String) : ConnState × Msg :=
  ({ s with tickSubscribers := s.tickSubscribers.filter (fun t => t != sym) },
   Msg.forgetAll "ticks")

/-- The onopen path of connect(): marks the transport open and
connected, resets the reconnect counter, and sends the single authorize
request (registering its pending entry under a fresh id).  The onopen
handler sends no other message: in particular no tick subscribe. -/
def connectOnOpen (s : ConnState) (token : String) (authCaller : Nat) :
    ConnState × List Msg :=
  let s1 : ConnState :=
    { s with wsOpen := true, isConnected := true, reconnectAttempts := 0 }
  let rid := s1.reqId + 1
  ({ s1 with reqId := rid, callbacks := (rid, authCaller) :: s1.callbacks },
   [Msg.authorize token])

/-- attemptReconnect followed by a successful connect: when fewer than
maxReconnectAttempts attempts were made, the counter is incremented and
connect() runs again, whose onopen path sends only the authorize
request.  Returns the state after the successful reopen and the list of
outbound messages of the whole reconnect. -/
def reconnectFlow (s : ConnState) (token : String) (authCaller : Nat) :
    ConnState × List Msg :=
  if s.reconnectAttempts < maxReconnectAttempts then
    connectOnOpen { s with reconnectAttempts := s.reconnectAttempts + 1 }
      token authCaller
  else (s, [])

end DerivAPI

/-- Venue-side effect of an outbound message on the set of venue tick
subscriptions.  Modelled from the spec: the protocol table of section 6
says a subscribe request starts streaming for the symbol and forget_all
cancels the subscriptions of the whole category, so a forget_all for
"ticks" leaves no tick subscription active for any symbol. -/
def venueApply (subs : List String) : Msg → List String
  | Msg.subscribe sym => if sym ∈ subs then subs else sym :: subs
  | Msg.forgetAll c => if c = "ticks" then [] else subs
  | _ => subs

/-- Events driving the connector's request machinery: a send by some
caller, arrival of a response carrying an id, and the firing of the
timeout timer of a request. -/
inductive ConnOp
  | sendReq (caller : Nat)
  | respArrive (respId : Nat)
  | timeoutFire (rid : Nat)
deriving DecidableEq, Repr

/-- A connector state together with the history the claims talk about:
the ids issued so far (newest first, with their caller) and the promise
settlements performed so far. -/
structure ConnTrace where
  st : ConnState
  issued : List (Nat × Nat)
  settles : List Settlement
deriving DecidableEq, Repr

/-- One event of the request machinery, acting on state and history. -/
def connStep (t : ConnTrace) : ConnOp → ConnTrace
  | ConnOp.sendReq caller =>
      match DerivAPI.send t.st caller with
      | (s1, evs, some asg) =>
          { st := s1, issued := (asg.1, caller) :: t.issued,
            settles := t.settles ++ evs }
      | (s1, evs, none) =>
          { st := s1, issued := t.issued, settles := t.settles ++ evs }
  | ConnOp.respArrive i =>
      let r := DerivAPI.onResponse t.st i
      { st := r.1, issued := t.issued, settles := t.settles ++ r.2 }
  | ConnOp.timeoutFire i =>
      let r := DerivAPI.onTimeout t.st i
      { st := r.1, issued := t.issued, settles := t.settles ++ r.2 }

/-- Run of the request machinery over a list of events. -/
def connRun (t : ConnTrace) (ops : List ConnOp) : ConnTrace :=
  ops.foldl connStep t

/-! ## Contract tracking and stake management (TerminalPage, part_004) -/

/-- Contract status as reported by getContractUpdate: "won", "lost" or
still "open". -/
inductive CStatus
  | won
  | lost
  | stillOpen
deriving DecidableEq, Repr

/-- getContractUpdate result as far as the tracked claims use it. -/
structure TradeResult where
  contract_id : Nat
  profit : ℚ
  status : CStatus
deriving DecidableEq, Repr

/-- Outcome of one status poll: the awaited getContractUpdate either
yields a result or its promise rejects (request timeout or transport
error). -/
inductive PollOutcome
  | ok (r : TradeResult)
  | err
deriving DecidableEq, Repr

/-- Martingale level update applied when a contract settles (TerminalPage
executeTrade, checkResult interval): a win resets the level to 0; a loss
with martingale enabled raises it to min (level+1) 5; with martingale
disabled the level is unchanged. -/
def nextMartingaleLevel (mart : Bool) (status : CStatus) (lvl : Nat) : Nat :=
  if status = CStatus.won then 0
  else if mart then min (lvl + 1) 5
  else lvl

/-- The mutable pieces of TerminalPage state the checkResult interval
touches: whether the interval is still scheduled, isTrading, the running
profit ref and the martingale level ref. -/
structure MonitorState where
  intervalActive : Bool
  isTrading : Bool
  totalProfit : ℚ
  martingaleLevel : Nat
deriving DecidableEq, Repr

/-- One firing of the checkResult interval.  On a rejected poll the
catch clause clears the interval and resets isTrading.  On a result with
terminal status the interval is cleared, profit accumulated and the
martingale level updated; on a still-open result nothing changes.  A
cleared interval never fires again, modelled by the identity when
intervalActive is false. -/
def checkResultTick (mart : Bool) (s : MonitorState) (p : PollOutcome) :
    MonitorState :=
  if s.intervalActive = false then s else
  match p with
  | PollOutcome.err =>
      { s with intervalActive := false, isTrading := false }
  | PollOutcome.ok r =>
      if r.status = CStatus.stillOpen then s
      else
        { intervalActive := false, isTrading := false,
          totalProfit := s.totalProfit + r.profit,
          martingaleLevel :=
            nextMartingaleLevel mart r.status s.martingaleLevel }

/-- The checkResult interval run over a sequence of poll outcomes. -/
def monitorRun (mart : Bool) (s : MonitorState) (ps : List PollOutcome) :
    MonitorState :=
  ps.foldl (checkResultTick mart) s

/-- Stake computation of TerminalPage.executeTrade: base stake, doubled
per martingale level when martingale is on and the level is positive,
then clamped to 20 percent of the balance. -/
def computeStake (stake : ℚ) (mart : Bool) (lvl : Nat) (balance : ℚ) : ℚ :=
  let c := if mart ∧ 0 < lvl then stake * 2 ^ lvl else stake
  min c (balance * (2 / 10))

/-- Stakes charged over a sequence of settled outcomes: each trade is
charged computeStake at the current level, then the level is updated by
the outcome.  Returns the charged stakes in order and the final level. -/
def runStakes (stake balance : ℚ) (mart : Bool) :
    Nat → List CStatus → List ℚ × Nat
  | lvl, [] => ([], lvl)
  | lvl, o :: rest =>
      let charged := computeStake stake mart lvl balance
      let r := runStakes stake balance mart (nextMartingaleLevel mart o lvl) rest
      (charged :: r.1, r.2)

/-! ## Auto-trading loop (TerminalPage, part_004) -/

/-- Session configuration of the auto-trading loop. -/
structure LoopCfg where
  targetProfit : ℚ
  stopLoss : ℚ
  martingale : Bool
deriving DecidableEq, Repr

/-- Loop state: the autoRunning ref, the isTrading flag, the cumulative
profit ref and the martingale level ref. -/
structure LoopState where
  autoRunning : Bool
  isTrading : Bool
  totalProfit : ℚ
  level : Nat
deriving DecidableEq, Repr

/-- TerminalPage.executeTrade up to the buy: returns early when a trade
is in flight; then checks the session limits and, when one is hit, stops
auto trading and returns without buying; otherwise marks a trade in
flight and issues the proposal and buy requests.  The Bool records
whether a buy request was issued. -/
def executeTrade (cfg : LoopCfg) (s : LoopState) : LoopState × Bool :=
  if s.isTrading then (s, false)
  else if cfg.targetProfit ≤ s.totalProfit then
    ({ s with autoRunning := false }, false)
  else if s.totalProfit ≤ -cfg.stopLoss then
    ({ s with autoRunning := false }, false)
  else ({ s with isTrading := true }, true)

/-- Events reaching the loop: an analysis tick with its computed
confidence (the effect calls executeTrade when auto trading is on, no
trade is in flight and confidence is at least 70), a manual trade
button, the settlement observed by the checkResult interval, and a
failed poll (whose catch clause only resets isTrading). -/
inductive LoopEv
  | signal (confidence : Int)
  | manual
  | settle (status : CStatus) (profit : ℚ)
  | pollErr
deriving DecidableEq, Repr

/-- One loop event.  Returns the new state and whether a buy request was
issued by the event. -/
def loopStep (cfg : LoopCfg) (s : LoopState) : LoopEv → LoopState × Bool
  | LoopEv.signal c =>
      if s.autoRunning = true ∧ s.isTrading = false ∧ (70 : Int) ≤ c then
        executeTrade cfg s
      else (s, false)
  | LoopEv.manual => executeTrade cfg s
  | LoopEv.settle st p =>
      if s.isTrading = true ∧ st ≠ CStatus.stillOpen then
        ({ s with isTrading := false,
                  totalProfit := s.totalProfit + p,
                  level := nextMartingaleLevel cfg.martingale st s.level },
         false)
      else (s, false)
  | LoopEv.pollErr =>
      if s.isTrading = true then ({ s with isTrading := false }, false)
      else (s, false)

/-- Loop run over a list of events, counting the buy requests issued. -/
def loopRun (cfg : LoopCfg) : LoopState → List LoopEv → LoopState × Nat
  | s, [] => (s, 0)
  | s, e :: rest =>
      let r := loopStep cfg s e
      let r2 := loopRun cfg r.1 rest
      (r2.1, (if r.2 then 1 else 0) + r2.2)

/-- A session limit is hit: cumulative profit reached the target or fell
to (or below) the negated stop loss. -/
def limitHit (cfg : LoopCfg) (s : LoopState) : Prop :=
  cfg.targetProfit ≤ s.totalProfit ∨ s.totalProfit ≤ -cfg.stopLoss

instance (cfg : LoopCfg) (s : LoopState) : Decidable (limitHit cfg s) := by
  unfold limitHit; infer_instance

/-! ## Indicator library (components/digit-heatmap.tsx).  JS number
series with NaN entries are modelled as lists of Option rationals,
none standing for NaN. -/

/-- Simple moving average: NaN for the first period-1 positions, then
the mean of the trailing period prices. -/
def SMA (prices : List ℚ) (period : Nat) : List (Option ℚ) :=
  (List.range prices.length).map (fun i =>
    if i < period - 1 then none
    else some ((((prices.drop (i + 1 - period)).take period).sum) / (period : ℚ)))

/-- The running EMA updates from the else branch of the EMA loop. -/
def emaGo (mult : ℚ) : ℚ → List ℚ → List ℚ
  | _, [] => []
  | ema, p :: rest =>
      let e := (p - ema) * mult + ema
      e :: emaGo mult e rest

/-- Exponential moving average: NaN before position period-1, the seed
SMA at position period-1, then the recursive update. -/
def EMA (prices : List ℚ) (period : Nat) : List (Option ℚ) :=
  if prices.length < period then List.replicate prices.length none
  else
    let multiplier : ℚ := 2 / ((period : ℚ) + 1)
    let ema0 : ℚ := (prices.take period).sum / (period : ℚ)
    List.replicate (period - 1) none ++
      some ema0 :: (emaGo multiplier ema0 (prices.drop period)).map some

/-- Relative strength index over trailing gain and loss averages. -/
def RSI (prices : List ℚ) (period : Nat) : List (Option ℚ) :=
  let diffs := List.zipWith (fun a b => b - a) prices prices.tail
  let gains := diffs.map (fun c => if 0 < c then c else 0)
  let losses := diffs.map (fun c => if c < 0 then |c| else 0)
  (List.range prices.length).map (fun i =>
    if i < period then none
    else
      let avgGain := (((gains.drop (i - period)).take period).sum) / (period : ℚ)
      let avgLoss := (((losses.drop (i - period)).take period).sum) / (period : ℚ)
      if avgLoss = 0 then some 100
      else some (100 - 100 / (1 + avgGain / avgLoss)))

/-- Pointwise subtraction with NaN propagation, as the isNaN guards of
the MACD loops do. -/
def jsub : Option ℚ → Option ℚ → Option ℚ
  | some a, some b => some (a - b)
  | _, _ => none

/-- Models the expression signalLine[signalIndex] or NaN of the MACD
alignment loop: an out-of-range index (undefined), a NaN entry and a
zero entry all produce NaN. -/
def jsOrNaN : Option (Option ℚ) → Option ℚ
  | some (some v) => if v = 0 then none else some v
  | _ => none

/-- Alignment of the MACD signal line with the macd line: NaN positions
stay NaN, valid positions consume the next signal-line entry. -/
def macdAlign (sig : List (Option ℚ)) : Nat → List (Option ℚ) → List (Option ℚ)
  | _, [] => []
  | idx, none :: rest => none :: macdAlign sig idx rest
  | idx, some _ :: rest => jsOrNaN sig[idx]? :: macdAlign sig (idx + 1) rest

structure MACDResult where
  macd : List (Option ℚ)
  signal : List (Option ℚ)
  histogram : List (Option ℚ)
deriving DecidableEq, Repr

/-- MACD with the source's default periods 12, 26, 9. -/
def MACD (prices : List ℚ) : MACDResult :=
  let fastEMA := EMA prices 12
  let slowEMA := EMA prices 26
  let macdLine := List.zipWith jsub fastEMA slowEMA
  let validMacd := macdLine.filterMap id
  let signalLine := EMA validMacd 9
  let fullSignal := macdAlign signalLine 0 macdLine
  let histogram := List.zipWith jsub macdLine fullSignal
  { macd := macdLine, signal := fullSignal, histogram := histogram }

inductive Trend
  | up
  | down
  | sideways
deriving DecidableEq, Repr

structure PatternResult where
  trend : Trend
  strength : ℚ
  consecutive : Nat
  pattern : String
deriving DecidableEq, Repr

/-- The up/down/consecutive counting loop of analyzeTickPattern, over
the list of consecutive differences.  State: ups, downs, consecutive,
lastDirection. -/
def patGo : Nat × Nat × Nat × Int → List ℚ → Nat × Nat × Nat × Int
  | st, [] => st
  | (ups, downs, consec, lastDir), d :: rest =>
      if 0 < d then
        patGo (ups + 1, downs, if lastDir = 1 then consec + 1 else 1, 1) rest
      else if d < 0 then
        patGo (ups, downs + 1, if lastDir = -1 then consec + 1 else 1, -1) rest
      else patGo (ups, downs, consec, lastDir) rest

/-- analyzeTickPattern: trend classification by the ratio of up moves. -/
def analyzeTickPattern (prices : List ℚ) : PatternResult :=
  if prices.length < 5 then
    { trend := Trend.sideways, strength := 0, consecutive := 0,
      pattern := "insufficient" }
  else
    let diffs := List.zipWith (fun a b => b - a) prices prices.tail
    let r := patGo (0, 0, 0, 0) diffs
    let total := r.1 + r.2.1
    let ratio : ℚ := if 0 < total then (r.1 : ℚ) / (total : ℚ) else 1 / 2
    let tp : Trend × String :=
      if 3 / 5 < ratio then (Trend.up, "bullish")
      else if ratio < 2 / 5 then (Trend.down, "bearish")
      else (Trend.sideways, "ranging")
    { trend := tp.1, strength := |ratio - 1 / 2| * 2 * 100,
      consecutive := r.2.2.1, pattern := tp.2 }

structure BBResult where
  upper : List (Option ℚ)
  middle : List (Option ℚ)
  lower : List (Option ℚ)

/-- One Bollinger band.  Math.sqrt has no exact rational counterpart, so
the square root is an uninterpreted parameter sqrtFn; every claim proved
about this code holds for all sqrtFn. -/
def bbBand (sqrtFn : ℚ → ℚ) (prices : List ℚ) (period : Nat) (stdDev : ℚ)
    (middle : List (Option ℚ)) (sign : ℚ) : List (Option ℚ) :=
  (List.range prices.length).map (fun i =>
    match middle.getD i none with
    | none => none
    | some mean =>
        let slice := (prices.drop (i + 1 - period)).take (min (i + 1) period)
        let variance := ((slice.map (fun v => (v - mean) ^ 2)).sum) / (slice.length : ℚ)
        some (mean + sign * stdDev * sqrtFn variance))

/-- BollingerBands with SMA middle band. -/
def BollingerBands (sqrtFn : ℚ → ℚ) (prices : List ℚ) (period : Nat)
    (stdDev : ℚ) : BBResult :=
  let middle := SMA prices period
  { upper := bbBand sqrtFn prices period stdDev middle 1,
    middle := middle,
    lower := bbBand sqrtFn prices period stdDev middle (-1) }

/-! ## The analysis effects of TerminalPage and SniperPage. -/

inductive MacdSig
  | buySig
  | sellSig
  | neutral
deriving DecidableEq, Repr

inductive Dir
  | rise
  | fall
deriving DecidableEq, Repr

/-- Models the JS expression arr[arr.length - 1] or default: undefined
(empty array), NaN and 0 all fall back to the default. -/
def jsOrDefault (x : Option (Option ℚ)) (d : ℚ) : ℚ :=
  match x with
  | some (some v) => if v = 0 then d else v
  | _ => d

structure TerminalAnalysis where
  rsi : ℚ
  ema9 : ℚ
  ema21 : ℚ
  macdSignal : MacdSig
  trend : Trend
  confidence : Int
  prediction : Dir
deriving DecidableEq, Repr

/-- The TerminalPage analysis effect: returns immediately (no analysis,
no signal) when fewer than 30 ticks are buffered; otherwise computes the
indicator set, the weighted bullish and bearish scores and the rounded
confidence, capped at 95 in the published analysis. -/
def terminalAnalysis (ticks : List ℚ) : Option TerminalAnalysis :=
  if ticks.length < 30 then none
  else
    let prices := ticks
    let rsiValues := RSI prices 14
    let ema9Values := EMA prices 9
    let ema21Values := EMA prices 21
    let macdResult := MACD prices
    let pattern := analyzeTickPattern (prices.drop (prices.length - 20))
    let currentRSI := jsOrDefault rsiValues.getLast? 50
    let currentEMA9 := jsOrDefault ema9Values.getLast? 0
    let currentEMA21 := jsOrDefault ema21Values.getLast? 0
    let currentMACD := jsOrDefault macdResult.histogram.getLast? 0
    let rsiScores : Nat × Nat :=
      if currentRSI < 30 then (2, 0)
      else if currentRSI < 40 then (1, 0)
      else if 70 < currentRSI then (0, 2)
      else if 60 < currentRSI then (0, 1)
      else (0, 0)
    let emaScores : Nat × Nat :=
      if currentEMA21 < currentEMA9 then (1, 0)
      else if currentEMA9 < currentEMA21 then (0, 1)
      else (0, 0)
    let macdScores : Nat × Nat := if 0 < currentMACD then (1, 0) else (0, 1)
    let trendScores : Nat × Nat :=
      if pattern.trend = Trend.up then (1, 0)
      else if pattern.trend = Trend.down then (0, 1)
      else (0, 0)
    let bullishSignals := rsiScores.1 + emaScores.1 + macdScores.1 + trendScores.1
    let bearishSignals := rsiScores.2 + emaScores.2 + macdScores.2 + trendScores.2
    let totalSignals := bullishSignals + bearishSignals
    let confidence : Int :=
      round (((max bullishSignals bearishSignals : ℚ) / (totalSignals : ℚ)) * 100)
    some
      { rsi := currentRSI, ema9 := currentEMA9, ema21 := currentEMA21,
        macdSignal :=
          if 0 < currentMACD then MacdSig.buySig
          else if currentMACD < 0 then MacdSig.sellSig
          else MacdSig.neutral,
        trend := pattern.trend,
        confidence := min confidence 95,
        prediction := if bearishSignals < bullishSignals then Dir.rise else Dir.fall }

/-- JS strict less-than on possibly-NaN values: any comparison with NaN
or undefined is false. -/
def jlt : Option ℚ → Option ℚ → Bool
  | some a, some b => decide (a < b)
  | _, _ => false

/-- JS less-or-equal on possibly-NaN values. -/
def jle : Option ℚ → Option ℚ → Bool
  | some a, some b => decide (a ≤ b)
  | _, _ => false

/-- Multiplication by a constant with NaN propagation. -/
def jmulC (x : Option ℚ) (c : ℚ) : Option ℚ := x.map (fun v => v * c)

structure SniperSignal where
  type : Dir
  confidence : Nat
  indicators : List String
deriving DecidableEq, Repr

/-- The SniperPage analysis effect: returns immediately (no signal) when
fewer than 50 ticks are buffered; otherwise scores five criteria, takes
confidence as the larger score capped at 95, and creates a signal only
when it reaches the configured minimum while the page is waiting for a
signal. -/
def sniperSignal (sqrtFn : ℚ → ℚ) (minConfidence : Nat)
    (waitingForSignal : Bool) (ticks : List ℚ) : Option SniperSignal :=
  if ticks.length < 50 then none
  else
    let prices := ticks
    let rsiValues := RSI prices 14
    let ema9 := EMA prices 9
    let ema21 := EMA prices 21
    let macdResult := MACD prices
    let bb := BollingerBands sqrtFn prices 20 2
    let pattern := analyzeTickPattern (prices.drop (prices.length - 20))
    let currentRSI := rsiValues.getLast?.join
    let currentEMA9 := ema9.getLast?.join
    let currentEMA21 := ema21.getLast?.join
    let currentMACD := macdResult.histogram.getLast?.join
    let currentPrice := prices.getLast?
    let upperBB := bb.upper.getLast?.join
    let lowerBB := bb.lower.getLast?.join
    let rsiCond : Nat × Nat × List String :=
      if jlt currentRSI (some 25) then (25, 0, ["RSI Oversold"])
      else if jlt (some 75) currentRSI then (0, 25, ["RSI Overbought"])
      else (0, 0, [])
    let emaCond : Nat × Nat × List String :=
      if jlt (jmulC currentEMA21 (1001 / 1000)) currentEMA9 then
        (20, 0, ["EMA Bullish Cross"])
      else if jlt currentEMA9 (jmulC currentEMA21 (999 / 1000)) then
        (0, 20, ["EMA Bearish Cross"])
      else (0, 0, [])
    let macdCond : Nat × Nat × List String :=
      if jlt (some (1 / 10000)) currentMACD then (15, 0, ["MACD Positive"])
      else if jlt currentMACD (some (-1 / 10000)) then (0, 15, ["MACD Negative"])
      else (0, 0, [])
    let bbCond : Nat × Nat × List String :=
      if jle currentPrice lowerBB then (25, 0, ["BB Lower Touch"])
      else if jle upperBB currentPrice then (0, 25, ["BB Upper Touch"])
      else (0, 0, [])
    let trendCond : Nat × Nat × List String :=
      if pattern.trend = Trend.down ∧ 5 ≤ pattern.consecutive then
        (15, 0, ["Reversal Expected"])
      else if pattern.trend = Trend.up ∧ 5 ≤ pattern.consecutive then
        (0, 15, ["Reversal Expected"])
      else (0, 0, [])
    let bullishScore :=
      rsiCond.1 + emaCond.1 + macdCond.1 + bbCond.1 + trendCond.1
    let bearishScore :=
      rsiCond.2.1 + emaCond.2.1 + macdCond.2.1 + bbCond.2.1 + trendCond.2.1
    let confidence := min (max bullishScore bearishScore) 95
    if minConfidence ≤ confidence ∧ waitingForSignal = true then
      some
        { type := if bearishScore < bullishScore then Dir.rise else Dir.fall,
          confidence := confidence,
          indicators :=
            rsiCond.2.2 ++ emaCond.2.2 ++ macdCond.2.2 ++ bbCond.2.2 ++
              trendCond.2.2 }
    else none

/-! ## getLastDigit and digitFrequency (components/digit-heatmap.tsx).
A venue quote is an exact decimal: a scaled integer m at pip precision
p, standing for the value m divided by ten to the p.  The JS expression
price.toString() is modelled as the canonical decimal numeral of that
value, i.e. with trailing fractional zeros dropped, which is what
Number.prototype.toString produces for these short decimal values. -/

/-- Drop trailing zero decimals: divides m by 10 while the precision is
positive and the last decimal digit is zero. -/
def stripZeros : Nat → Nat → Nat × Nat
  | m, 0 => (m, 0)
  | m, p + 1 => if m % 10 = 0 then stripZeros (m / 10) p else (m, p + 1)

/-- Decimal digit as a character. -/
def digitChar (d : Nat) : Char := Char.ofNat (48 + d)

/-- Little-endian decimal digits, with fuel for structural recursion;
the fuel never runs out when it starts at n. -/
def natDigitsGo : Nat → Nat → List Nat
  | 0, n => [n % 10]
  | fuel + 1, n => if n < 10 then [n] else n % 10 :: natDigitsGo fuel (n / 10)

/-- Little-endian decimal digits of n. -/
def natDigitsRev (n : Nat) : List Nat := natDigitsGo n n

/-- Big-endian decimal numeral of n as characters. -/
def natChars (n : Nat) : List Char := ((natDigitsRev n).map digitChar).reverse

/-- Characters of the decimal rendering of the quote m at precision p:
trailing fractional zeros dropped; when a fractional part remains, the
integer part, a dot, and the zero-padded fractional digits. -/
def jsNumberChars (m p : Nat) : List Char :=
  let r := stripZeros m p
  if r.2 = 0 then natChars r.1
  else
    let frac := natChars (r.1 % 10 ^ r.2)
    natChars (r.1 / 10 ^ r.2) ++
      '.' :: (List.replicate (r.2 - frac.length) '0' ++ frac)

/-- price.toString() for a quote m at precision p. -/
def jsNumberToString (m p : Nat) : String := String.mk (jsNumberChars m p)

/-- getLastDigit: the last character of the price string parsed as an
integer (for a decimal digit character, its value). -/
def getLastDigit (priceStr : String) : Nat :=
  (priceStr.toList.getLastD '0').toNat - 48

/-- getLastDigit applied to the rendered quote. -/
def getLastDigitOfPrice (m p : Nat) : Nat := getLastDigit (jsNumberToString m p)

/-- digitFrequency: how often digit d is observed as the last digit over
a list of quotes. -/
def digitFrequency (prices : List (Nat × Nat)) (d : Nat) : Nat :=
  (prices.map (fun q => getLastDigitOfPrice q.1 q.2)).count d

/-! ## Statements of the spec claims that the code refutes, rendered
from the spec's words so they can be compared with the embedded code. -/

/-- The reconnect behavior the spec asserts: every previously active
symbol's subscribe request is among the outbound messages of a
successful reconnect, before any new tick can be delivered. -/
def reconnectResubscribesAll : Prop :=
  ∀ (s : ConnState) (token : String) (authCaller : Nat),
    ∀ sym ∈ s.tickSubscribers,
      Msg.subscribe sym ∈ (DerivAPI.reconnectFlow s token authCaller).2

/-- The tracker retry behavior the spec asserts: a failed status poll
leaves the polling interval active so the next interval polls again. -/
def pollFailureRetries : Prop :=
  ∀ (mart : Bool) (s : MonitorState), s.intervalActive = true →
    (checkResultTick mart s PollOutcome.err).intervalActive = true

/-- The disconnect behavior the spec asserts: disconnect rejects every
pending request's promise with CancelledError. -/
def disconnectCancelsAllPending : Prop :=
  ∀ s : ConnState, ∀ e ∈ s.callbacks,
    Settlement.cancelled e.2 ∈ (DerivAPI.disconnect s).2

/-- The stake rule the spec asserts: after a win the next computed stake
equals the base stake exactly, and after a loss it equals base times two
to the power min (level+1) (max level), with no other factor. -/
def stakeRuleAsStated : Prop :=
  ∀ (base balance : ℚ) (lvl : Nat),
    computeStake base true (nextMartingaleLevel true CStatus.won lvl) balance
      = base ∧
    computeStake base true (nextMartingaleLevel true CStatus.lost lvl) balance
      = base * 2 ^ (min (lvl + 1) 5)

/-! ## Concrete fixtures used by counterexamples and witnesses. -/

/-- Run of the request machinery from a bare connector state. -/
def connRunFrom (s : ConnState) (ops : List ConnOp) : ConnTrace :=
  connRun { st := s, issued := [], settles := [] } ops

/-- A session that lost its transport while two tick subscriptions were
active and has not yet exhausted its reconnect attempts. -/
def c1State : ConnState :=
  { wsOpen := false, isConnected := false, reqId := 3, callbacks := [],
    tickSubscribers := ["R_10", "R_50"], reconnectAttempts := 0 }

/-- A live checkResult interval tracking an open contract. -/
def c2State : MonitorState :=
  { intervalActive := true, isTrading := true, totalProfit := 0,
    martingaleLevel := 1 }

/-- A connected session with one pending request (id 1, caller 7). -/
def c3State : ConnState :=
  { wsOpen := true, isConnected := true, reqId := 1, callbacks := [(1, 7)],
    tickSubscribers := [], reconnectAttempts := 0 }

/-- A running session that has already passed its profit target of 10
with cumulative profit 11 and no trade in flight. -/
def c5Cfg : LoopCfg := { targetProfit := 10, stopLoss := 20, martingale := true }

def c5State : LoopState :=
  { autoRunning := true, isTrading := false, totalProfit := 11, level := 0 }

/-- A freshly connected session with no pending requests. -/
def c6Start : ConnState :=
  { wsOpen := true, isConnected := true, reqId := 0, callbacks := [],
    tickSubscribers := [], reconnectAttempts := 0 }

/-- Two requests answered in the opposite order of their issuance. -/
def c6Ops : List ConnOp :=
  [ConnOp.sendReq 10, ConnOp.sendReq 20, ConnOp.respArrive 2, ConnOp.respArrive 1]

/-- One request whose timeout fires with no response ever arriving. -/
def c7Ops : List ConnOp := [ConnOp.sendReq 10, ConnOp.timeoutFire 1]

/-- A subscriber map with two active symbols. -/
def c9State : ConnState :=
  { wsOpen := true, isConnected := true, reqId := 0, callbacks := [],
    tickSubscribers := ["R_10", "R_50"], reconnectAttempts := 0 }

/-- Invariant of the request machinery: every pending entry was issued;
issued ids are bounded by the counter; the issued list (newest first) has
strictly decreasing ids, so each id exceeds all previously issued ones;
every resolution delivered a response to the caller that was issued that
very id; and a request that was resolved or timed out has no entry left
in the map and its id is bounded by the counter. -/
def ConnInv (t : ConnTrace) : Prop :=
  (∀ e ∈ t.st.callbacks, e ∈ t.issued) ∧
  (∀ e ∈ t.issued, e.1 ≤ t.st.reqId) ∧
  t.issued.Pairwise (fun a b => b.1 < a.1) ∧
  (∀ c i, Settlement.resolved c i ∈ t.settles → (i, c) ∈ t.issued) ∧
  (∀ c i,
     Settlement.resolved c i ∈ t.settles ∨
       Settlement.timedOut c i ∈ t.settles →
     (∀ c', (i, c') ∉ t.st.callbacks) ∧ i ≤ t.st.reqId)

/-! ## Helper lemmas. -/

theorem monitorRun_inactive (mart : Bool) (s : MonitorState)
    (h : s.intervalActive = false) (ps : List PollOutcome) :
    monitorRun mart s ps = s := by
  induction ps with
  | nil => rfl
  | cons p rest ih =>
      have hstep : checkResultTick mart s p = s := by
        unfold checkResultTick
        rw [if_pos h]
      show monitorRun mart (checkResultTick mart s p) rest = s
      rw [hstep, ih]

/-! ## C1: reconnection and re-subscription. -/

/-- C1, counterexample: the claim that a successful reconnect re-sends
the subscribe request of every previously active symbol is false: from a
session with active subscriptions for R_10 and R_50, the reconnect path
sends only the authorize message and no subscribe request at all. -/
theorem claim_C1_counterexample : ¬ reconnectResubscribesAll := by
  intro h
  have h2 := h c1State "tok" 99 "R_10" (by decide)
  revert h2
  decide

/-- C1, amended: on an unexpected close with remaining retry budget the
client reconnects and re-authorizes, but the outbound traffic of the
reconnect is exactly the authorize message: no subscribe request is sent
for any previously active symbol, and the local handler map is carried
over unchanged, so the venue-side tick subscriptions are not
re-established. -/
theorem claim_C1_amended (s : ConnState) (token : String) (authCaller : Nat)
    (h : s.reconnectAttempts < DerivAPI.maxReconnectAttempts) :
    (DerivAPI.reconnectFlow s token authCaller).2 = [Msg.authorize token] ∧
    (DerivAPI.reconnectFlow s token authCaller).1.tickSubscribers =
      s.tickSubscribers ∧
    ∀ sym : String,
      Msg.subscribe sym ∉ (DerivAPI.reconnectFlow s token authCaller).2 := by
  unfold DerivAPI.reconnectFlow DerivAPI.connectOnOpen
  rw [if_pos h]
  refine ⟨rfl, rfl, ?_⟩
  intro sym hmem
  simp at hmem

/-- C1, witness: the amended theorem applied to the concrete session
with two active subscriptions. -/
theorem claim_C1_witness :
    c1State.reconnectAttempts < DerivAPI.maxReconnectAttempts ∧
    ((DerivAPI.reconnectFlow c1State "tok" 99).2 = [Msg.authorize "tok"] ∧
     (DerivAPI.reconnectFlow c1State "tok" 99).1.tickSubscribers =
       c1State.tickSubscribers ∧
     ∀ sym : String,
       Msg.subscribe sym ∉ (DerivAPI.reconnectFlow c1State "tok" 99).2) :=
  ⟨by decide, claim_C1_amended c1State "tok" 99 (by decide)⟩

/-! ## C2: poll failure handling in the contract tracker. -/

/-- C2, counterexample: the claim that a failed poll is retried at the
next interval is false: with the interval live, a rejected
getContractUpdate takes the catch branch, which clears the interval. -/
theorem claim_C2_counterexample : ¬ pollFailureRetries := by
  intro h
  have h2 := h false c2State rfl
  revert h2
  decide

/-- C2, amended: when a status poll fails while the interval is live,
the catch clause clears the interval and resets isTrading even though
the contract has not reached a terminal status; the loop issues no
further poll, so any later outcome, including the eventual settlement,
is never observed: profit and martingale level stay unchanged. -/
theorem claim_C2_amended (mart : Bool) (s : MonitorState)
    (h : s.intervalActive = true) :
    checkResultTick mart s PollOutcome.err =
      { s with intervalActive := false, isTrading := false } ∧
    ∀ ps : List PollOutcome,
      monitorRun mart (checkResultTick mart s PollOutcome.err) ps =
        { s with intervalActive := false, isTrading := false } := by
  have hstep : checkResultTick mart s PollOutcome.err =
      { s with intervalActive := false, isTrading := false } := by
    unfold checkResultTick
    rw [h]
    simp
  refine ⟨hstep, fun ps => ?_⟩
  rw [hstep, monitorRun_inactive]
  rfl

/-- C2, witness: the amended theorem at a live interval, with the
contract's true settlement (a win of 0.95) arriving after the failed
poll and being ignored. -/
theorem claim_C2_witness :
    c2State.intervalActive = true ∧
    (checkResultTick false c2State PollOutcome.err =
      { c2State with intervalActive := false, isTrading := false } ∧
     ∀ ps : List PollOutcome,
       monitorRun false (checkResultTick false c2State PollOutcome.err) ps =
         { c2State with intervalActive := false, isTrading := false }) :=
  ⟨rfl, claim_C2_amended false c2State rfl⟩

/-! ## C3: disconnect semantics. -/

/-- C3, counterexample: the claim that disconnect rejects every pending
request with CancelledError is false: disconnect only clears the maps
and performs no settlement, so the pending request (1, 7) of the
concrete state receives no CancelledError. -/
theorem claim_C3_counterexample : ¬ disconnectCancelsAllPending := by
  intro h
  have h2 := h c3State (1, 7) (by decide)
  revert h2
  decide

/-- C3, amended: disconnect closes the transport, clears all pending
entries and all subscriptions without settling any pending promise (the
settlement list is empty, and afterwards neither a response nor the
timeout timer can settle them, since their entries are gone), and it is
idempotent: a second disconnect returns the same state and again settles
nothing. -/
theorem claim_C3_amended (s : ConnState) :
    (DerivAPI.disconnect s).1.wsOpen = false ∧
    (DerivAPI.disconnect s).1.isConnected = false ∧
    (DerivAPI.disconnect s).1.callbacks = [] ∧
    (DerivAPI.disconnect s).1.tickSubscribers = [] ∧
    (DerivAPI.disconnect s).2 = [] ∧
    DerivAPI.disconnect (DerivAPI.disconnect s).1 = DerivAPI.disconnect s ∧
    ∀ i : Nat,
      DerivAPI.onResponse (DerivAPI.disconnect s).1 i =
        ((DerivAPI.disconnect s).1, []) ∧
      DerivAPI.onTimeout (DerivAPI.disconnect s).1 i =
        ((DerivAPI.disconnect s).1, []) :=
  ⟨rfl, rfl, rfl, rfl, rfl, rfl, fun _ => ⟨rfl, rfl⟩⟩

/-! ## C4: martingale stake schedule. -/

/-- C4, counterexample: the stake rule as stated ignores the clamp to 20
percent of the balance: with base stake 1 and balance 4, the stake
computed after a win is 4/5, not the base stake 1. -/
theorem claim_C4_counterexample : ¬ stakeRuleAsStated := by
  intro h
  have h2 := (h 1 4 0).1
  have hmin : (4 : ℚ) * (2 / 10) ≤ 1 := by norm_num
  simp only [computeStake, nextMartingaleLevel, if_pos rfl] at h2
  rw [if_neg (by simp)] at h2
  rw [min_eq_right hmin] at h2
  norm_num at h2

/-- C4, amended: with martingale enabled, a win resets the level to 0
and the next stake is min (base) (20 percent of balance); a loss raises
the level to min (level+1) 5 and the next stake is min (base times two
to that level) (20 percent of balance).  In particular, with base stake
1 and balance 40, the outcome sequence LOST, LOST, LOST, WON is charged
stakes 1, 2, 4, 8 and leaves the level at 0. -/
theorem claim_C4_amended :
    (∀ lvl : Nat, nextMartingaleLevel true CStatus.won lvl = 0) ∧
    (∀ lvl : Nat, nextMartingaleLevel true CStatus.lost lvl = min (lvl + 1) 5) ∧
    (∀ base balance : ℚ,
        computeStake base true 0 balance = min base (balance * (2 / 10))) ∧
    (∀ (base balance : ℚ) (lvl : Nat),
        computeStake base true (min (lvl + 1) 5) balance =
          min (base * 2 ^ (min (lvl + 1) 5)) (balance * (2 / 10))) ∧
    runStakes 1 40 true 0 [CStatus.lost, CStatus.lost, CStatus.lost, CStatus.won]
      = ([1, 2, 4, 8], 0) := by
  refine ⟨fun lvl => rfl, fun lvl => rfl, fun base balance => ?_,
     fun base balance lvl => ?_, ?_⟩
  · simp [computeStake]
  · have hpos : 0 < min (lvl + 1) 5 := by omega
    simp [computeStake, hpos]
  · have e1 : computeStake 1 true 0 40 = 1 := by
      simp only [computeStake]
      rw [if_neg (by simp)]
      rw [min_eq_left (by norm_num)]
    have e2 : computeStake 1 true 1 40 = 2 := by
      simp only [computeStake]
      rw [if_pos (by norm_num)]
      rw [min_eq_left (by norm_num)]
      norm_num
    have e3 : computeStake 1 true 2 40 = 4 := by
      simp only [computeStake]
      rw [if_pos (by norm_num)]
      rw [min_eq_left (by norm_num)]
      norm_num
    have e4 : computeStake 1 true 3 40 = 8 := by
      simp only [computeStake]
      rw [if_pos (by norm_num)]
      rw [min_eq_left (by norm_num)]
      norm_num
    have l1 : nextMartingaleLevel true CStatus.lost 0 = 1 := rfl
    have l2 : nextMartingaleLevel true CStatus.lost 1 = 2 := rfl
    have l3 : nextMartingaleLevel true CStatus.lost 2 = 3 := rfl
    have l4 : nextMartingaleLevel true CStatus.won 3 = 0 := rfl
    simp only [runStakes, l1, l2, l3, l4, e1, e2, e3, e4]

/-! ## C5: session limits stop the loop. -/

theorem executeTrade_stops_at_limit (cfg : LoopCfg) (s : LoopState)
    (hl : limitHit cfg s) (ht : s.isTrading = false) :
    executeTrade cfg s = ({ s with autoRunning := false }, false) := by
  unfold executeTrade
  rw [if_neg (by simp [ht])]
  by_cases h1 : cfg.targetProfit ≤ s.totalProfit
  · rw [if_pos h1]
  · rcases hl with h | h
    · exact absurd h h1
    · rw [if_neg h1, if_pos h]

theorem executeTrade_no_buy_at_limit (cfg : LoopCfg) (s : LoopState)
    (hb : (executeTrade cfg s).2 = true) : ¬ limitHit cfg s := by
  intro hl
  unfold executeTrade at hb
  by_cases h1 : s.isTrading = true
  · rw [if_pos h1] at hb
    simp at hb
  · rw [if_neg h1] at hb
    by_cases h2 : cfg.targetProfit ≤ s.totalProfit
    · rw [if_pos h2] at hb
      simp at hb
    · rw [if_neg h2] at hb
      by_cases h3 : s.totalProfit ≤ -cfg.stopLoss
      · rw [if_pos h3] at hb
        simp at hb
      · rcases hl with h | h
        · exact h2 h
        · exact h3 h

theorem loopStep_limit (cfg : LoopCfg) (s : LoopState) (hl : limitHit cfg s)
    (ht : s.isTrading = false) (e : LoopEv) :
    (loopStep cfg s e).2 = false ∧ limitHit cfg (loopStep cfg s e).1 ∧
    (loopStep cfg s e).1.isTrading = false := by
  have hexec := executeTrade_stops_at_limit cfg s hl ht
  cases e with
  | signal c =>
      simp only [loopStep]
      split
      · rw [hexec]
        exact ⟨rfl, hl, ht⟩
      · exact ⟨rfl, hl, ht⟩
  | manual =>
      simp only [loopStep]
      rw [hexec]
      exact ⟨rfl, hl, ht⟩
  | settle st p =>
      simp only [loopStep]
      rw [if_neg (by rintro ⟨h1, -⟩; rw [ht] at h1; exact Bool.false_ne_true h1)]
      exact ⟨rfl, hl, ht⟩
  | pollErr =>
      simp only [loopStep]
      rw [if_neg (by rw [ht]; exact Bool.false_ne_true)]
      exact ⟨rfl, hl, ht⟩

theorem loopRun_limit (cfg : LoopCfg) :
    ∀ (evs : List LoopEv) (s : LoopState), limitHit cfg s →
      s.isTrading = false →
      (loopRun cfg s evs).2 = 0 ∧ limitHit cfg (loopRun cfg s evs).1 ∧
        (loopRun cfg s evs).1.isTrading = false := by
  intro evs
  induction evs with
  | nil => exact fun s hl ht => ⟨rfl, hl, ht⟩
  | cons e rest ih =>
      intro s hl ht
      have hstep := loopStep_limit cfg s hl ht e
      have ihh := ih (loopStep cfg s e).1 hstep.2.1 hstep.2.2
      refine ⟨?_, ihh.2.1, ihh.2.2⟩
      show (if (loopStep cfg s e).2 then 1 else 0) +
          (loopRun cfg (loopStep cfg s e).1 rest).2 = 0
      rw [hstep.1, ihh.1]
      simp

/-- C5: once cumulative profit has reached the target or fallen to the
stop loss (and no trade is in flight, which settlement guarantees, since
profit only changes at settlement, which also clears isTrading), the run
over any further events issues zero buy requests and the limit stays
hit; the first subsequent qualifying signal turns autoRunning off; and,
unconditionally, any event that does issue a buy does so from a state
where no limit is hit. -/
theorem claim_C5 (cfg : LoopCfg) (s : LoopState) (evs : List LoopEv)
    (hl : limitHit cfg s) (ht : s.isTrading = false) :
    (loopRun cfg s evs).2 = 0 ∧
    limitHit cfg (loopRun cfg s evs).1 ∧
    (loopRun cfg s evs).1.isTrading = false ∧
    (∀ c : Int, 70 ≤ c →
       (loopStep cfg s (LoopEv.signal c)).1.autoRunning = false) ∧
    (∀ (s' : LoopState) (e : LoopEv),
       (loopStep cfg s' e).2 = true → ¬ limitHit cfg s') := by
  have hrun := loopRun_limit cfg evs s hl ht
  refine ⟨hrun.1, hrun.2.1, hrun.2.2, ?_, ?_⟩
  · intro c hc
    simp only [loopStep]
    split
    · rw [executeTrade_stops_at_limit cfg s hl ht]
    · rename_i hguard
      by_cases ha : s.autoRunning = true
      · exact absurd ⟨ha, ht, hc⟩ hguard
      · exact Bool.not_eq_true _ ▸ (Bool.eq_false_iff.mpr ha)
  · intro s' e hb
    cases e with
    | signal c =>
        simp only [loopStep] at hb
        split at hb
        · exact executeTrade_no_buy_at_limit cfg s' hb
        · simp at hb
    | manual => exact executeTrade_no_buy_at_limit cfg s' hb
    | settle st p =>
        simp only [loopStep] at hb
        split at hb <;> simp at hb
    | pollErr =>
        simp only [loopStep] at hb
        split at hb <;> simp at hb

/-- C5, witness: target 10, stop loss 20, cumulative profit 11, two
subsequent high-confidence signals: zero buys are issued. -/
theorem claim_C5_witness :
    limitHit c5Cfg c5State ∧ c5State.isTrading = false ∧
    ((loopRun c5Cfg c5State [LoopEv.signal 95, LoopEv.signal 80]).2 = 0 ∧
     limitHit c5Cfg (loopRun c5Cfg c5State [LoopEv.signal 95, LoopEv.signal 80]).1 ∧
     (loopRun c5Cfg c5State [LoopEv.signal 95, LoopEv.signal 80]).1.isTrading = false ∧
     (∀ c : Int, 70 ≤ c →
        (loopStep c5Cfg c5State (LoopEv.signal c)).1.autoRunning = false) ∧
     (∀ (s' : LoopState) (e : LoopEv),
        (loopStep c5Cfg s' e).2 = true → ¬ limitHit c5Cfg s')) :=
  ⟨Or.inl (by norm_num [c5Cfg, c5State]), rfl,
   claim_C5 c5Cfg c5State [LoopEv.signal 95, LoopEv.signal 80]
     (Or.inl (by norm_num [c5Cfg, c5State])) rfl⟩

/-! ## C9: unsubscribe removes one handler but forgets all venue
subscriptions. -/

/-- C9: unsubscribeTicks removes exactly the given symbol from the local
subscriber map, leaving every other symbol's handler registered, while
the outbound message is forget_all for the whole tick category, whose
venue-side effect cancels the venue subscriptions of every symbol. -/
theorem claim_C9 (s : ConnState) (sym : String) :
    sym ∉ (DerivAPI.unsubscribeTicks s sym).1.tickSubscribers ∧
    (∀ t : String, t ≠ sym →
       (t ∈ (DerivAPI.unsubscribeTicks s sym).1.tickSubscribers ↔
        t ∈ s.tickSubscribers)) ∧
    (DerivAPI.unsubscribeTicks s sym).2 = Msg.forgetAll "ticks" ∧
    ∀ venueSubs : List String,
      venueApply venueSubs (DerivAPI.unsubscribeTicks s sym).2 = [] := by
  refine ⟨?_, ?_, rfl, fun venueSubs => rfl⟩
  · intro hmem
    simp only [DerivAPI.unsubscribeTicks, List.mem_filter, bne_iff_ne] at hmem
    exact hmem.2 rfl
  · intro t ht
    simp only [DerivAPI.unsubscribeTicks, List.mem_filter, bne_iff_ne]
    exact ⟨fun h => h.1, fun h => ⟨h, ht⟩⟩

/-- C9, witness: unsubscribing R_10 from the session with subscriptions
for R_10 and R_50. -/
theorem claim_C9_witness :
    "R_10" ∉ (DerivAPI.unsubscribeTicks c9State "R_10").1.tickSubscribers ∧
    (∀ t : String, t ≠ "R_10" →
       (t ∈ (DerivAPI.unsubscribeTicks c9State "R_10").1.tickSubscribers ↔
        t ∈ c9State.tickSubscribers)) ∧
    (DerivAPI.unsubscribeTicks c9State "R_10").2 = Msg.forgetAll "ticks" ∧
    ∀ venueSubs : List String,
      venueApply venueSubs (DerivAPI.unsubscribeTicks c9State "R_10").2 = [] :=
  claim_C9 c9State "R_10"

/-! ## Helper lemmas for the request correlation machinery. -/

theorem mapGet_mem {i c : Nat} :
    ∀ {l : List (Nat × Nat)}, mapGet i l = some c → (i, c) ∈ l := by
  intro l
  induction l with
  | nil => intro h; simp [mapGet] at h
  | cons e rest ih =>
      intro h
      unfold mapGet at h
      split at h
      · rename_i he
        exact List.mem_cons.mpr
          (Or.inl (Prod.ext_iff.mpr ⟨he.symm, (Option.some.inj h).symm⟩))
      · exact List.mem_cons.mpr (Or.inr (ih h))

theorem mem_mapDelete {e : Nat × Nat} {i : Nat} {l : List (Nat × Nat)} :
    e ∈ mapDelete i l ↔ e ∈ l ∧ e.1 ≠ i := by
  unfold mapDelete
  rw [List.mem_filter]
  simp [bne_iff_ne]

theorem mapGet_mapDelete_self (i : Nat) (l : List (Nat × Nat)) :
    mapGet i (mapDelete i l) = none := by
  cases h : mapGet i (mapDelete i l) with
  | none => rfl
  | some c =>
      have hm := mapGet_mem h
      rw [mem_mapDelete] at hm
      exact absurd rfl hm.2

theorem send_eq_pos (s : ConnState) (caller : Nat)
    (h : s.wsOpen = true ∧ s.isConnected = true) :
    DerivAPI.send s caller =
      ({ s with reqId := s.reqId + 1,
                callbacks := (s.reqId + 1, caller) :: s.callbacks },
       [], some (s.reqId + 1, DerivAPI.requestTimeoutMs)) := by
  unfold DerivAPI.send
  rw [if_pos h]

theorem send_eq_neg (s : ConnState) (caller : Nat)
    (h : ¬(s.wsOpen = true ∧ s.isConnected = true)) :
    DerivAPI.send s caller = (s, [Settlement.notConnected caller], none) := by
  unfold DerivAPI.send
  rw [if_neg h]

theorem connStep_inv {t : ConnTrace} (h : ConnInv t) (op : ConnOp) :
    ConnInv (connStep t op) := by
  obtain ⟨h1, h2, h3, h4, h5⟩ := h
  cases op with
  | sendReq caller =>
      by_cases hc : t.st.wsOpen = true ∧ t.st.isConnected = true
      · have hstep : connStep t (ConnOp.sendReq caller) =
            { st :=
                { t.st with
                    reqId := t.st.reqId + 1,
                    callbacks := (t.st.reqId + 1, caller) :: t.st.callbacks },
              issued := (t.st.reqId + 1, caller) :: t.issued,
              settles := t.settles } := by
          simp only [connStep, send_eq_pos t.st caller hc, List.append_nil]
        rw [hstep]
        refine ⟨?_, ?_, ?_, ?_, ?_⟩
        · intro e he
          rcases List.mem_cons.mp he with he1 | he2
          · exact List.mem_cons.mpr (Or.inl he1)
          · exact List.mem_cons.mpr (Or.inr (h1 e he2))
        · intro e he
          rcases List.mem_cons.mp he with he1 | he2
          · rw [he1]
          · exact (h2 e he2).trans (Nat.le_succ _)
        · exact List.pairwise_cons.mpr
            ⟨fun b hb => Nat.lt_succ_of_le (h2 b hb), h3⟩
        · intro c i hr
          exact List.mem_cons.mpr (Or.inr (h4 c i hr))
        · intro c i hs
          refine ⟨?_, (h5 c i hs).2.trans (Nat.le_succ _)⟩
          intro c' hmem
          rcases List.mem_cons.mp hmem with he1 | he2
          · have hle : i ≤ t.st.reqId := (h5 c i hs).2
            have heq : i = t.st.reqId + 1 := congrArg Prod.fst he1
            omega
          · exact (h5 c i hs).1 c' he2
      · have hstep : connStep t (ConnOp.sendReq caller) =
            { st := t.st, issued := t.issued,
              settles := t.settles ++ [Settlement.notConnected caller] } := by
          simp only [connStep, send_eq_neg t.st caller hc]
        rw [hstep]
        refine ⟨h1, h2, h3, ?_, ?_⟩
        · intro c i hr
          rcases List.mem_append.mp hr with hr1 | hr2
          · exact h4 c i hr1
          · simp at hr2
        · intro c i hs
          rcases hs with hs | hs
          · rcases List.mem_append.mp hs with hs1 | hs2
            · exact h5 c i (Or.inl hs1)
            · simp at hs2
          · rcases List.mem_append.mp hs with hs1 | hs2
            · exact h5 c i (Or.inr hs1)
            · simp at hs2
  | respArrive j =>
      cases hmg : mapGet j t.st.callbacks with
      | none =>
          have hstep : connStep t (ConnOp.respArrive j) =
              { st := t.st, issued := t.issued, settles := t.settles } := by
            simp only [connStep, DerivAPI.onResponse, hmg, List.append_nil]
          rw [hstep]
          exact ⟨h1, h2, h3, h4, h5⟩
      | some c0 =>
          have hstep : connStep t (ConnOp.respArrive j) =
              { st := { t.st with callbacks := mapDelete j t.st.callbacks },
                issued := t.issued,
                settles := t.settles ++ [Settlement.resolved c0 j] } := by
            simp only [connStep, DerivAPI.onResponse, hmg]
          rw [hstep]
          have hj : (j, c0) ∈ t.issued := h1 _ (mapGet_mem hmg)
          refine ⟨?_, h2, h3, ?_, ?_⟩
          · intro e he
            exact h1 e (mem_mapDelete.mp he).1
          · intro c i hr
            rcases List.mem_append.mp hr with hr1 | hr2
            · exact h4 c i hr1
            · simp only [List.mem_singleton, Settlement.resolved.injEq] at hr2
              rw [hr2.1, hr2.2]
              exact hj
          · intro c i hs
            have hnew : (c = c0 ∧ i = j) ∨
                (Settlement.resolved c i ∈ t.settles ∨
                 Settlement.timedOut c i ∈ t.settles) := by
              rcases hs with hs | hs
              · rcases List.mem_append.mp hs with hs1 | hs2
                · exact Or.inr (Or.inl hs1)
                · simp only [List.mem_singleton, Settlement.resolved.injEq] at hs2
                  exact Or.inl hs2
              · rcases List.mem_append.mp hs with hs1 | hs2
                · exact Or.inr (Or.inr hs1)
                · simp at hs2
            rcases hnew with ⟨-, rfl⟩ | hold
            · refine ⟨?_, h2 _ hj⟩
              intro c' hmem
              exact absurd rfl (mem_mapDelete.mp hmem).2
            · refine ⟨?_, (h5 c i hold).2⟩
              intro c' hmem
              exact (h5 c i hold).1 c' (mem_mapDelete.mp hmem).1
  | timeoutFire j =>
      cases hmg : mapGet j t.st.callbacks with
      | none =>
          have hstep : connStep t (ConnOp.timeoutFire j) =
              { st := t.st, issued := t.issued, settles := t.settles } := by
            simp only [connStep, DerivAPI.onTimeout, hmg, List.append_nil]
          rw [hstep]
          exact ⟨h1, h2, h3, h4, h5⟩
      | some c0 =>
          have hstep : connStep t (ConnOp.timeoutFire j) =
              { st := { t.st with callbacks := mapDelete j t.st.callbacks },
                issued := t.issued,
                settles := t.settles ++ [Settlement.timedOut c0 j] } := by
            simp only [connStep, DerivAPI.onTimeout, hmg]
          rw [hstep]
          have hj : (j, c0) ∈ t.issued := h1 _ (mapGet_mem hmg)
          refine ⟨?_, h2, h3, ?_, ?_⟩
          · intro e he
            exact h1 e (mem_mapDelete.mp he).1
          · intro c i hr
            rcases List.mem_append.mp hr with hr1 | hr2
            · exact h4 c i hr1
            · simp at hr2
          · intro c i hs
            have hnew : (c = c0 ∧ i = j) ∨
                (Settlement.resolved c i ∈ t.settles ∨
                 Settlement.timedOut c i ∈ t.settles) := by
              rcases hs with hs | hs
              · rcases List.mem_append.mp hs with hs1 | hs2
                · exact Or.inr (Or.inl hs1)
                · simp at hs2
              · rcases List.mem_append.mp hs with hs1 | hs2
                · exact Or.inr (Or.inr hs1)
                · simp only [List.mem_singleton, Settlement.timedOut.injEq] at hs2
                  exact Or.inl hs2
            rcases hnew with ⟨-, rfl⟩ | hold
            · refine ⟨?_, h2 _ hj⟩
              intro c' hmem
              exact absurd rfl (mem_mapDelete.mp hmem).2
            · refine ⟨?_, (h5 c i hold).2⟩
              intro c' hmem
              exact (h5 c i hold).1 c' (mem_mapDelete.mp hmem).1

theorem connRun_inv {t : ConnTrace} (h : ConnInv t) (ops : List ConnOp) :
    ConnInv (connRun t ops) := by
  induction ops generalizing t with
  | nil => exact h
  | cons op rest ih => exact ih (connStep_inv h op)

theorem connInv_init (s : ConnState) (h : s.callbacks = []) :
    ConnInv { st := s, issued := [], settles := [] } := by
  refine ⟨?_, ?_, ?_, ?_, ?_⟩ <;> simp [h]

theorem pairwise_key_unique :
    ∀ (l : List (Nat × Nat)), l.Pairwise (fun a b => b.1 < a.1) →
      ∀ (c c' i : Nat), (i, c) ∈ l → (i, c') ∈ l → c = c' := by
  intro l
  induction l with
  | nil => intro _ c c' i h; simp at h
  | cons a rest ih =>
      intro hp c c' i hm1 hm2
      rw [List.pairwise_cons] at hp
      rcases List.mem_cons.mp hm1 with e1 | m1
      · rcases List.mem_cons.mp hm2 with e2 | m2
        · have := e1.trans e2.symm
          exact (Prod.ext_iff.mp this).2
        · have hlt := hp.1 (i, c') m2
          rw [← e1] at hlt
          simp at hlt
      · rcases List.mem_cons.mp hm2 with e2 | m2
        · have hlt := hp.1 (i, c) m1
          rw [← e2] at hlt
          simp at hlt
        · exact ih hp.2 c c' i m1 m2

theorem connStep_settles_shape (t : ConnTrace) (op : ConnOp) (x : Settlement)
    (hx : x ∈ (connStep t op).settles) :
    x ∈ t.settles ∨
    (∃ c, x = Settlement.notConnected c) ∨
    (∃ c i, x = Settlement.resolved c i ∧ op = ConnOp.respArrive i) ∨
    (∃ c i, x = Settlement.timedOut c i ∧ op = ConnOp.timeoutFire i) := by
  cases op with
  | sendReq caller =>
      by_cases hc : t.st.wsOpen = true ∧ t.st.isConnected = true
      · rw [show connStep t (ConnOp.sendReq caller) =
            { st :=
                { t.st with
                    reqId := t.st.reqId + 1,
                    callbacks := (t.st.reqId + 1, caller) :: t.st.callbacks },
              issued := (t.st.reqId + 1, caller) :: t.issued,
              settles := t.settles } from by
          simp only [connStep, send_eq_pos t.st caller hc, List.append_nil]] at hx
        exact Or.inl hx
      · rw [show connStep t (ConnOp.sendReq caller) =
            { st := t.st, issued := t.issued,
              settles := t.settles ++ [Settlement.notConnected caller] } from by
          simp only [connStep, send_eq_neg t.st caller hc]] at hx
        rcases List.mem_append.mp hx with hx1 | hx2
        · exact Or.inl hx1
        · simp only [List.mem_singleton] at hx2
          exact Or.inr (Or.inl ⟨caller, hx2⟩)
  | respArrive j =>
      cases hmg : mapGet j t.st.callbacks with
      | none =>
          simp only [connStep, DerivAPI.onResponse, hmg, List.append_nil] at hx
          exact Or.inl hx
      | some c0 =>
          simp only [connStep, DerivAPI.onResponse, hmg] at hx
          rcases List.mem_append.mp hx with hx1 | hx2
          · exact Or.inl hx1
          · simp only [List.mem_singleton] at hx2
            exact Or.inr (Or.inr (Or.inl ⟨c0, j, hx2, rfl⟩))
  | timeoutFire j =>
      cases hmg : mapGet j t.st.callbacks with
      | none =>
          simp only [connStep, DerivAPI.onTimeout, hmg, List.append_nil] at hx
          exact Or.inl hx
      | some c0 =>
          simp only [connStep, DerivAPI.onTimeout, hmg] at hx
          rcases List.mem_append.mp hx with hx1 | hx2
          · exact Or.inl hx1
          · simp only [List.mem_singleton] at hx2
            exact Or.inr (Or.inr (Or.inr ⟨c0, j, hx2, rfl⟩))

theorem run_timedOut_mem :
    ∀ (ops : List ConnOp) (t : ConnTrace) (c i : Nat),
      Settlement.timedOut c i ∈ (connRun t ops).settles →
      Settlement.timedOut c i ∈ t.settles ∨ ConnOp.timeoutFire i ∈ ops := by
  intro ops
  induction ops with
  | nil => exact fun t c i h => Or.inl h
  | cons op rest ih =>
      intro t c i h
      rcases ih (connStep t op) c i h with hin | hfire
      · rcases connStep_settles_shape t op _ hin with hold | hnc | hres | hto
        · exact Or.inl hold
        · obtain ⟨c', habs⟩ := hnc
          simp at habs
        · obtain ⟨c', i', habs, -⟩ := hres
          simp at habs
        · obtain ⟨c', i', heq, hop⟩ := hto
          simp only [Settlement.timedOut.injEq] at heq
          rw [hop, heq.2]
          exact Or.inr (List.mem_cons_self _ _)
      · exact Or.inr (List.mem_cons.mpr (Or.inr hfire))

/-! ## C6: id monotonicity and request correlation. -/

/-- C6: over any event sequence from a state with no pending requests,
the issued-id history (newest first) is strictly decreasing, i.e. every
newly assigned correlation id is strictly greater than the id of every
previously issued request; every resolution settles a caller with the
response carrying the very id issued to that caller, regardless of
arrival order; and an id determines its caller uniquely. -/
theorem claim_C6 (s : ConnState) (ops : List ConnOp)
    (h : s.callbacks = []) :
    (connRunFrom s ops).issued.Pairwise (fun a b => b.1 < a.1) ∧
    (∀ c i, Settlement.resolved c i ∈ (connRunFrom s ops).settles →
       (i, c) ∈ (connRunFrom s ops).issued) ∧
    (∀ c c' i, (i, c) ∈ (connRunFrom s ops).issued →
       (i, c') ∈ (connRunFrom s ops).issued → c = c') := by
  have hinv := connRun_inv (connInv_init s h) ops
  exact ⟨hinv.2.2.1, hinv.2.2.2.1,
    fun c c' i => pairwise_key_unique _ hinv.2.2.1 c c' i⟩

/-- C6, witness: two requests (callers 10 and 20, ids 1 and 2) answered
out of order: caller 20 is resolved with response 2 first, then caller
10 with response 1, each with its own id. -/
theorem claim_C6_witness :
    (connRunFrom c6Start c6Ops).settles =
      [Settlement.resolved 20 2, Settlement.resolved 10 1] ∧
    ((connRunFrom c6Start c6Ops).issued.Pairwise (fun a b => b.1 < a.1) ∧
     (∀ c i, Settlement.resolved c i ∈ (connRunFrom c6Start c6Ops).settles →
        (i, c) ∈ (connRunFrom c6Start c6Ops).issued) ∧
     (∀ c c' i, (i, c) ∈ (connRunFrom c6Start c6Ops).issued →
        (i, c') ∈ (connRunFrom c6Start c6Ops).issued → c = c')) :=
  ⟨by decide, claim_C6 c6Start c6Ops rfl⟩

/-! ## C7: request timeout and pending-entry cleanup. -/

/-- C7: the timer scheduled by send expires after exactly 30000 ms; when
it fires with the request still pending, the promise is rejected with
the timeout error and the entry deleted, and when the request was
already settled nothing happens; a matching response also deletes the
entry; and along any event sequence from a state with no pending
requests, the map never retains an entry for an id that was resolved or
timed out, and a timeout rejection only ever happens at the firing of
that request's timer. -/
theorem claim_C7 (s : ConnState) (ops : List ConnOp)
    (h : s.callbacks = []) :
    DerivAPI.requestTimeoutMs = 30000 ∧
    (∀ (s' : ConnState) (caller rid d : Nat),
       (DerivAPI.send s' caller).2.2 = some (rid, d) →
         d = DerivAPI.requestTimeoutMs) ∧
    (∀ (s' : ConnState) (i c : Nat), mapGet i s'.callbacks = some c →
       DerivAPI.onTimeout s' i =
         ({ s' with callbacks := mapDelete i s'.callbacks },
          [Settlement.timedOut c i]) ∧
       mapGet i (DerivAPI.onTimeout s' i).1.callbacks = none) ∧
    (∀ (s' : ConnState) (i : Nat), mapGet i s'.callbacks = none →
       DerivAPI.onTimeout s' i = (s', [])) ∧
    (∀ (s' : ConnState) (i c : Nat), mapGet i s'.callbacks = some c →
       mapGet i (DerivAPI.onResponse s' i).1.callbacks = none) ∧
    (∀ c i, Settlement.resolved c i ∈ (connRunFrom s ops).settles ∨
            Settlement.timedOut c i ∈ (connRunFrom s ops).settles →
       ∀ c', (i, c') ∉ (connRunFrom s ops).st.callbacks) ∧
    (∀ c i, Settlement.timedOut c i ∈ (connRunFrom s ops).settles →
       ConnOp.timeoutFire i ∈ ops) := by
  have hinv := connRun_inv (connInv_init s h) ops
  refine ⟨rfl, ?_, ?_, ?_, ?_, ?_, ?_⟩
  · intro s' caller rid d hd
    unfold DerivAPI.send at hd
    split at hd
    · simp only [Option.some.injEq, Prod.mk.injEq] at hd
      exact hd.2.symm
    · simp at hd
  · intro s' i c hmg
    constructor
    · simp only [DerivAPI.onTimeout, hmg]
    · simp only [DerivAPI.onTimeout, hmg]
      exact mapGet_mapDelete_self i s'.callbacks
  · intro s' i hmg
    simp only [DerivAPI.onTimeout, hmg]
  · intro s' i c hmg
    simp only [DerivAPI.onResponse, hmg]
    exact mapGet_mapDelete_self i s'.callbacks
  · intro c i hs c'
    exact (hinv.2.2.2.2 c i hs).1 c'
  · intro c i hto
    rcases run_timedOut_mem ops { st := s, issued := [], settles := [] } c i hto with
      habs | hmem
    · simp at habs
    · exact hmem

/-- C7, witness: a request (caller 10, id 1) whose timer fires with no
response: the promise is rejected with the timeout error, the entry is
gone afterwards, and the rejection happened at the timer event. -/
theorem claim_C7_witness :
    (connRunFrom c6Start c7Ops).settles = [Settlement.timedOut 10 1] ∧
    (connRunFrom c6Start c7Ops).st.callbacks = [] ∧
    (DerivAPI.requestTimeoutMs = 30000 ∧
     (∀ (s' : ConnState) (caller rid d : Nat),
        (DerivAPI.send s' caller).2.2 = some (rid, d) →
          d = DerivAPI.requestTimeoutMs) ∧
     (∀ (s' : ConnState) (i c : Nat), mapGet i s'.callbacks = some c →
        DerivAPI.onTimeout s' i =
          ({ s' with callbacks := mapDelete i s'.callbacks },
           [Settlement.timedOut c i]) ∧
        mapGet i (DerivAPI.onTimeout s' i).1.callbacks = none) ∧
     (∀ (s' : ConnState) (i : Nat), mapGet i s'.callbacks = none →
        DerivAPI.onTimeout s' i = (s', [])) ∧
     (∀ (s' : ConnState) (i c : Nat), mapGet i s'.callbacks = some c →
        mapGet i (DerivAPI.onResponse s' i).1.callbacks = none) ∧
     (∀ c i, Settlement.resolved c i ∈ (connRunFrom c6Start c7Ops).settles ∨
             Settlement.timedOut c i ∈ (connRunFrom c6Start c7Ops).settles →
        ∀ c', (i, c') ∉ (connRunFrom c6Start c7Ops).st.callbacks) ∧
     (∀ c i, Settlement.timedOut c i ∈ (connRunFrom c6Start c7Ops).settles →
        ConnOp.timeoutFire i ∈ c7Ops)) :=
  ⟨by decide, by decide, claim_C7 c6Start c7Ops rfl⟩

/-! ## C8: no signal before the window is full. -/

/-- C8: with fewer than 30 buffered ticks the Terminal analysis effect
returns without producing an analysis or signal, and with fewer than 50
buffered ticks the Sniper analysis effect produces no signal, for every
square-root implementation, confidence threshold and waiting flag. -/
theorem claim_C8 :
    (∀ ticks : List ℚ, ticks.length < 30 → terminalAnalysis ticks = none) ∧
    (∀ (sqrtFn : ℚ → ℚ) (minConf : Nat) (waiting : Bool) (ticks : List ℚ),
       ticks.length < 50 → sniperSignal sqrtFn minConf waiting ticks = none) := by
  constructor
  · intro ticks h
    unfold terminalAnalysis
    rw [if_pos h]
  · intro sqrtFn minConf waiting ticks h
    unfold sniperSignal
    rw [if_pos h]

/-- C8, witness: 29 ticks produce no Terminal analysis and 49 ticks
produce no Sniper signal. -/
theorem claim_C8_witness :
    ((List.replicate 29 (1 : ℚ)).length < 30 ∧
     terminalAnalysis (List.replicate 29 (1 : ℚ)) = none) ∧
    ((List.replicate 49 (1 : ℚ)).length < 50 ∧
     sniperSignal id 60 true (List.replicate 49 (1 : ℚ)) = none) :=
  ⟨⟨by simp, claim_C8.1 (List.replicate 29 (1 : ℚ)) (by simp)⟩,
   ⟨by simp, claim_C8.2 id 60 true (List.replicate 49 (1 : ℚ)) (by simp)⟩⟩

/-! ## C10: last digit of the rendered price. -/

theorem natDigitsGo_ne_nil (fuel n : Nat) : natDigitsGo fuel n ≠ [] := by
  cases fuel with
  | zero => simp [natDigitsGo]
  | succ f =>
      unfold natDigitsGo
      split <;> simp

theorem natDigitsGo_head (fuel n : Nat) :
    (natDigitsGo fuel n).head? = some (n % 10) := by
  cases fuel with
  | zero => rfl
  | succ f =>
      unfold natDigitsGo
      split
      · rename_i h
        simp [Nat.mod_eq_of_lt h]
      · rfl

theorem natChars_ne_nil (n : Nat) : natChars n ≠ [] := by
  unfold natChars natDigitsRev
  simp [natDigitsGo_ne_nil]

theorem natChars_getLast? (n : Nat) :
    (natChars n).getLast? = some (digitChar (n % 10)) := by
  unfold natChars natDigitsRev
  rw [List.getLast?_reverse, List.head?_map, natDigitsGo_head]
  rfl

theorem digitChar_toNat (d : Nat) (h : d < 10) : (digitChar d).toNat = 48 + d := by
  interval_cases d <;> rfl

theorem stripZeros_succ (m q : Nat) :
    stripZeros m (q + 1) =
      if m % 10 = 0 then stripZeros (m / 10) q else (m, q + 1) := rfl

theorem stripZeros_cancel (m q : Nat) (hm : m % 10 = 0) :
    stripZeros m (q + 1) = stripZeros (m / 10) q := by
  rw [stripZeros_succ, if_pos hm]

theorem stripZeros_keep (m q : Nat) (hm : m % 10 ≠ 0) :
    stripZeros m (q + 1) = (m, q + 1) := by
  rw [stripZeros_succ, if_neg hm]

theorem stripZeros_snd_mod (p : Nat) :
    ∀ m : Nat, 0 < (stripZeros m p).2 → (stripZeros m p).1 % 10 ≠ 0 := by
  induction p with
  | zero => intro m h; simp [stripZeros] at h
  | succ q ih =>
      intro m h
      by_cases hm : m % 10 = 0
      · rw [stripZeros_cancel m q hm] at h ⊢
        exact ih _ h
      · rw [stripZeros_keep m q hm]
        exact hm

theorem jsNumberChars_getLast?_of_frac (m p : Nat)
    (h : 0 < (stripZeros m p).2) :
    (jsNumberChars m p).getLast? =
      some (digitChar ((stripZeros m p).1 % 10)) := by
  unfold jsNumberChars
  rw [if_neg (by omega)]
  have hfrac := natChars_ne_nil ((stripZeros m p).1 % 10 ^ (stripZeros m p).2)
  rw [show natChars ((stripZeros m p).1 / 10 ^ (stripZeros m p).2) ++
        '.' :: (List.replicate
          ((stripZeros m p).2 -
            (natChars ((stripZeros m p).1 % 10 ^ (stripZeros m p).2)).length) '0' ++
          natChars ((stripZeros m p).1 % 10 ^ (stripZeros m p).2)) =
      (natChars ((stripZeros m p).1 / 10 ^ (stripZeros m p).2) ++
        '.' :: List.replicate
          ((stripZeros m p).2 -
            (natChars ((stripZeros m p).1 % 10 ^ (stripZeros m p).2)).length) '0') ++
        natChars ((stripZeros m p).1 % 10 ^ (stripZeros m p).2) from by
    simp]
  rw [List.getLast?_append_of_ne_nil _ hfrac, natChars_getLast?]
  have hdvd : (10 : Nat) ∣ 10 ^ (stripZeros m p).2 :=
    dvd_pow_self 10 (by omega)
  rw [Nat.mod_mod_of_dvd _ hdvd]

theorem getLastDigitOfPrice_of_frac (m p : Nat)
    (h : 0 < (stripZeros m p).2) :
    getLastDigitOfPrice m p = (stripZeros m p).1 % 10 := by
  unfold getLastDigitOfPrice jsNumberToString getLastDigit
  rw [show (String.mk (jsNumberChars m p)).toList = jsNumberChars m p from rfl]
  rw [List.getLastD_eq_getLast?, jsNumberChars_getLast?_of_frac m p h]
  rw [Option.getD_some]
  rw [digitChar_toNat _ (Nat.mod_lt _ (by norm_num))]
  omega

/-- C10: getLastDigit parses the last character of the price's rendered
decimal string; the concrete quote of value 1.20 at pip precision 2
renders as the string with the trailing zero dropped and yields digit 2,
not 0; dropping a trailing zero at positive precision never changes the
observed digit; whenever the normalized rendering keeps a fractional
part, the observed digit is that of the price before the dropped zeros
and is never 0; and digitFrequency therefore counts no 0 for a list of
such quotes. -/
theorem claim_C10 :
    getLastDigitOfPrice 120 2 = 2 ∧
    (∀ m p : Nat, 0 < p → m % 10 = 0 →
       getLastDigitOfPrice m p = getLastDigitOfPrice (m / 10) (p - 1)) ∧
    (∀ m p : Nat, 0 < (stripZeros m p).2 →
       getLastDigitOfPrice m p = (stripZeros m p).1 % 10 ∧
       (stripZeros m p).1 % 10 ≠ 0) ∧
    (∀ qs : List (Nat × Nat),
       (∀ q ∈ qs, 0 < (stripZeros q.1 q.2).2) → digitFrequency qs 0 = 0) := by
  refine ⟨by decide, ?_, ?_, ?_⟩
  · intro m p hp hm
    obtain ⟨q, rfl⟩ : ∃ q, p = q + 1 := ⟨p - 1, by omega⟩
    show getLastDigit (jsNumberToString m (q + 1)) =
      getLastDigit (jsNumberToString (m / 10) (q + 1 - 1))
    unfold jsNumberToString jsNumberChars
    rw [stripZeros_cancel m q hm]
    rfl
  · intro m p h
    exact ⟨getLastDigitOfPrice_of_frac m p h, stripZeros_snd_mod p m h⟩
  · intro qs hq
    unfold digitFrequency
    rw [List.count_eq_zero]
    intro hmem
    rw [List.mem_map] at hmem
    obtain ⟨q, hqmem, hval⟩ := hmem
    rw [getLastDigitOfPrice_of_frac q.1 q.2 (hq q hqmem)] at hval
    exact stripZeros_snd_mod q.2 q.1 (hq q hqmem) hval

/-- C10, witness: dropping the trailing zero of 1.20 keeps digit 2; the
quote 1.05 keeps its fractional rendering and yields digit 5; and a list
holding the quote 1.20 counts no 0 in the digit frequencies. -/
theorem claim_C10_witness :
    (0 < 2 ∧ 120 % 10 = 0 ∧
     getLastDigitOfPrice 120 2 = getLastDigitOfPrice 12 1) ∧
    (0 < (stripZeros 105 2).2 ∧
     getLastDigitOfPrice 105 2 = (stripZeros 105 2).1 % 10 ∧
     (stripZeros 105 2).1 % 10 ≠ 0) ∧
    ((∀ q ∈ [((120 : Nat), (2 : Nat))], 0 < (stripZeros q.1 q.2).2) ∧
     digitFrequency [(120, 2)] 0 = 0) :=
  ⟨⟨by decide, by decide, claim_C10.2.1 120 2 (by decide) (by decide)⟩,
   ⟨by decide, claim_C10.2.2.1 105 2 (by decide)⟩,
   ⟨by decide, claim_C10.2.2.2 [(120, 2)] (by decide)⟩⟩

end Spec2Proof
